import Mathlib

/-!
Shallow embedding of the real-time market-data distribution core of the
repository, translated from `backend/websocket_manager.py` (class
`WebSocketManager`, dataclass `ClientSubscription`, enum `SubscriptionType`)
and from the WebSocket endpoint dispatch loop in `backend/simple_backend.py`
(`websocket_endpoint`).

Modelling conventions:
- Python strings are modelled as `List Char` (`Str`); f-string task keys such
  as `f"price_{coin}"` become list append, and `str.replace(old, new)` (which
  replaces every non-overlapping occurrence, left to right) is modelled by the
  fuel-based `pyReplace` below.
- Python sets (`subscriptions`, `watched_coins`) are modelled as duplicate-free
  lists with membership-based operations (`addToSet` for `set.add`/`update`,
  `List.filter` for `set.discard`).
- Python dicts (`price_cache`, `last_update`, `update_tasks`) are modelled as
  association lists; `d[k] = v` is `assocSet`, `k in d` is `assocContains`.
- A `WebSocket` object is modelled as `Sock`: an identity tag (Python object
  identity), a `closed` flag (a closed transport makes `send_text` raise), and
  the ordered list of messages the transport accepted.  `send_personal_message`
  wraps `send_text` in `try/except Exception`, so a failed send leaves the
  socket unchanged (the exception is swallowed and only logged).
- An `asyncio.Task` is modelled by the loop it runs (`TaskLoop`); the ghost
  field `cancelled_tasks` records every `task.cancel()` call so that teardown
  claims can be stated.
- Timestamps (`datetime.now()`) are modelled as `Nat` inputs.
- Float payloads fetched from the price API are modelled as opaque `Int`
  values; no claim computes with them.
-/

abbrev Str := List Char

/-- Insert into a Python set modelled as a duplicate-free list
(`set.add` / one step of `set.update`). -/
def addToSet [DecidableEq α] (x : α) (l : List α) : List α :=
  if x ∈ l then l else l ++ [x]

/-- `list.remove(x)`: remove the first element equal to `x`
(callers check membership first, so the miss case never raises here). -/
def removeFirst [DecidableEq α] (a : α) : List α → List α
  | [] => []
  | b :: rest => if b = a then rest else b :: removeFirst a rest

/-- Mutate the list element at position `i` in place (Python object mutation of
an element held by reference); out-of-range indices leave the list unchanged. -/
def modifyAt (i : Nat) (f : α → α) : List α → List α
  | [] => []
  | b :: rest =>
    match i with
    | 0 => f b :: rest
    | j+1 => b :: modifyAt j f rest

/-- Dict assignment `d[k] = v` on an association list: overwrite the binding of
`k` if present, else append it. -/
def assocSet [DecidableEq α] (k : α) (v : β) : List (α × β) → List (α × β)
  | [] => [(k, v)]
  | (k', v') :: rest => if k' = k then (k, v) :: rest else (k', v') :: assocSet k v rest

/-- Dict lookup `d[k]` / `d.get(k)` on an association list. -/
def assocLookup [DecidableEq α] (k : α) : List (α × β) → Option β
  | [] => none
  | (k', v') :: rest => if k' = k then some v' else assocLookup k rest

/-- Dict membership `k in d` on an association list. -/
def assocContains [DecidableEq α] (k : α) (l : List (α × β)) : Bool :=
  l.any (fun kv => kv.1 = k)

/-- Does `pat` occur as a contiguous substring of the given string? -/
def containsSub (pat : Str) : Str → Bool
  | [] => pat.isPrefixOf []
  | a :: rest => pat.isPrefixOf (a :: rest) || containsSub pat rest

/-- Worker for `pyReplace`, structurally recursive on a fuel bound so that it
evaluates in the kernel; one unit of fuel is spent per scan position. -/
def replaceAllAux (pat repl : Str) : Nat → Str → Str
  | _, [] => []
  | 0, s => s
  | fuel+1, a :: rest =>
      if pat.isPrefixOf (a :: rest) then
        repl ++ replaceAllAux pat repl fuel (List.drop pat.length (a :: rest))
      else a :: replaceAllAux pat repl fuel rest

/-- CPython `s.replace(pat, repl)` for a nonempty pattern: replace every
non-overlapping occurrence of `pat` in `s`, scanning left to right.  The source
only calls it with the nonempty literals `'price_'` and `'indicators_'`. -/
def pyReplace (s pat repl : Str) : Str := replaceAllAux pat repl s.length s

/-- `enum SubscriptionType` from `websocket_manager.py`. -/
inductive SubscriptionType
  | price_updates
  | portfolio_updates
  | news_updates
  | alerts
  | technical_indicators
deriving DecidableEq, Repr

/-- The wire value of each enum member (`SubscriptionType(value)` uses these). -/
def SubscriptionType.value : SubscriptionType → Str
  | .price_updates => "price_updates".toList
  | .portfolio_updates => "portfolio_updates".toList
  | .news_updates => "news_updates".toList
  | .alerts => "alerts".toList
  | .technical_indicators => "technical_indicators".toList

/-- Payload of `_fetch_price_data` (floats modelled as opaque integers). -/
structure PriceData where
  price : Int
  price_change_24h : Int
  volume_24h : Int
  market_cap : Int
deriving DecidableEq, Repr

/-- The JSON messages the manager and the endpoint write to a client socket,
abstracted to their distinguishing fields. -/
inductive Msg
  | connectionEstablished (client_id : Str)
  | subscriptionConfirmed (t : SubscriptionType)
  | unsubscriptionConfirmed (t : SubscriptionType)
  | priceUpdate (coin : Str) (data : PriceData) (ts : Nat)
  | pong
  | currentPrices (data : List (Str × PriceData))
deriving DecidableEq, Repr

/-- A `fastapi.WebSocket` object: object identity, transport liveness, and the
messages the transport accepted, in order. -/
structure Sock where
  sockId : Nat
  closed : Bool
  sent : List Msg
deriving DecidableEq, Repr

/-- `@dataclass ClientSubscription` (equality is field-wise, as for the Python
dataclass; distinct connections differ at least in `websocket.sockId`). -/
structure ClientSubscription where
  client_id : Str
  websocket : Sock
  subscriptions : List SubscriptionType
  watched_coins : List Str
  user_id : Option Str := none
deriving DecidableEq, Repr

/-- The coroutine an `asyncio.Task` in `update_tasks` is running. -/
inductive TaskLoop
  | priceLoop (coin : Str)
  | newsLoop
  | indicatorsLoop (coin : Str)
deriving DecidableEq, Repr

/-- The mutable state of a `WebSocketManager` instance.  `cancelled_tasks` is a
ghost log of every `task.cancel()` call, in order. -/
structure WSManagerState where
  active_connections : List ClientSubscription
  price_cache : List (Str × PriceData)
  last_update : List (Str × Nat)
  update_tasks : List (Str × TaskLoop)
  cancelled_tasks : List Str
deriving DecidableEq, Repr

/-- `WebSocketManager.__init__`: all registries start empty. -/
def initialState : WSManagerState :=
  { active_connections := [], price_cache := [], last_update := [],
    update_tasks := [], cancelled_tasks := [] }

/-- `send_personal_message`: `websocket.send_text` wrapped in
`try/except Exception` — on a closed transport the send raises, the exception
is swallowed (only logged), and the socket is unchanged. -/
def send_personal_message (m : Msg) (ws : Sock) : Sock :=
  if ws.closed then ws else { ws with sent := ws.sent ++ [m] }

/-- The per-client delivery test inside `broadcast_to_subscribers`: skip unless
the client subscribes to the type, and skip when a truthy `coin` argument (a
nonempty string) is not in the client's watched set. -/
def eligibleForBroadcast (t : SubscriptionType) (coin : Option Str)
    (cl : ClientSubscription) : Bool :=
  t ∈ cl.subscriptions &&
    (match coin with
     | none => true
     | some c => c.isEmpty || c ∈ cl.watched_coins)

/-- `broadcast_to_subscribers`: deliver to every eligible client via
`send_personal_message`.  The `disconnected_clients` collection in the source is
unreachable (its `except` arms can never fire because `send_personal_message`
already swallows every exception), so the connection list itself never changes.
-/
def broadcast_to_subscribers (s : WSManagerState) (m : Msg)
    (t : SubscriptionType) (coin : Option Str) : WSManagerState :=
  { s with active_connections := s.active_connections.map (fun cl =>
      if eligibleForBroadcast t coin cl then
        { cl with websocket := send_personal_message m cl.websocket }
      else cl) }

/-- The `has_subscribers` generator used by the price/indicator loops and by
`_cleanup_unused_tasks`: some client subscribes to `t` and watches `coin`. -/
def hasFeedSubscribers (conns : List ClientSubscription)
    (t : SubscriptionType) (coin : Str) : Bool :=
  conns.any (fun cl => t ∈ cl.subscriptions && coin ∈ cl.watched_coins)

/-- The news variant of `has_subscribers` (not instrument-scoped). -/
def hasNewsSubscribers (conns : List ClientSubscription) : Bool :=
  conns.any (fun cl => SubscriptionType.news_updates ∈ cl.subscriptions)

/-- The per-task-key test of `_cleanup_unused_tasks`: decode the key by prefix
(`startswith` / `replace(prefix, '')`) and report whether the decoded feed has
no subscribers left.  Keys matching no branch are never cleaned up. -/
def shouldRemove (conns : List ClientSubscription) (key : Str) : Bool :=
  if ("price_".toList).isPrefixOf key then
    !(hasFeedSubscribers conns .price_updates (pyReplace key "price_".toList []))
  else if ("indicators_".toList).isPrefixOf key then
    !(hasFeedSubscribers conns .technical_indicators (pyReplace key "indicators_".toList []))
  else if key = "news_updates".toList then
    !(hasNewsSubscribers conns)
  else false

/-- `_cleanup_unused_tasks`: cancel every task whose decoded feed has no
subscribers, then delete those keys from `update_tasks`. -/
def cleanup_unused_tasks (s : WSManagerState) : WSManagerState :=
  let toRemove := s.update_tasks.filter (fun kt => shouldRemove s.active_connections kt.1)
  { s with
    update_tasks := s.update_tasks.filter (fun kt => !(shouldRemove s.active_connections kt.1)),
    cancelled_tasks := s.cancelled_tasks ++ toRemove.map Prod.fst }

/-- `connect`: append a fresh connection with empty subscription and watch
sets, then send the welcome message on its socket. -/
def connect (s : WSManagerState) (client_id : Str) (sockId : Nat) : WSManagerState :=
  let ws0 : Sock := { sockId := sockId, closed := false, sent := [] }
  let cl : ClientSubscription :=
    { client_id := client_id,
      websocket := send_personal_message (.connectionEstablished client_id) ws0,
      subscriptions := [], watched_coins := [], user_id := none }
  { s with active_connections := s.active_connections ++ [cl] }

/-- `disconnect`: remove the first occurrence of the given record if present
(`list.remove` after an `in` check), then run the task cleanup. -/
def disconnect (s : WSManagerState) (cl : ClientSubscription) : WSManagerState :=
  let s1 := if cl ∈ s.active_connections then
      { s with active_connections := removeFirst cl s.active_connections }
    else s
  cleanup_unused_tasks s1

/-- The guarded insertion of `_start_update_tasks`: create a task under `key`
only when no task with that key exists. -/
def insertTask (s : WSManagerState) (key : Str) (loop : TaskLoop) : WSManagerState :=
  if assocContains key s.update_tasks then s
  else { s with update_tasks := s.update_tasks ++ [(key, loop)] }

/-- `_start_update_tasks`: per-coin `price_{coin}` / `indicators_{coin}` tasks,
a single shared `news_updates` task, and nothing for the other feed types. -/
def start_update_tasks (s : WSManagerState) (t : SubscriptionType)
    (coins : List Str) : WSManagerState :=
  match t with
  | .price_updates =>
      coins.foldl (fun s c => insertTask s ("price_".toList ++ c) (.priceLoop c)) s
  | .news_updates => insertTask s "news_updates".toList .newsLoop
  | .technical_indicators =>
      coins.foldl (fun s c => insertTask s ("indicators_".toList ++ c) (.indicatorsLoop c)) s
  | _ => s

/-- `subscribe_client` acting on the connection at position `i` (the object the
endpoint holds): add the type to its subscription set, merge `coins` into its
shared watched set, start any newly needed tasks, and send the confirmation. -/
def subscribe_client (s : WSManagerState) (i : Nat) (t : SubscriptionType)
    (coins : List Str) : WSManagerState :=
  let conns1 := modifyAt i (fun cl =>
      { cl with subscriptions := addToSet t cl.subscriptions,
                watched_coins := coins.foldl (fun w c => addToSet c w) cl.watched_coins })
    s.active_connections
  let s2 := start_update_tasks { s with active_connections := conns1 } t coins
  let conns2 := modifyAt i (fun cl =>
      { cl with websocket := send_personal_message (.subscriptionConfirmed t) cl.websocket })
    s2.active_connections
  { s2 with active_connections := conns2 }

/-- `unsubscribe_client` acting on the connection at position `i`: discard the
type from its subscription set (the watched set is untouched), send the
confirmation, then run the task cleanup. -/
def unsubscribe_client (s : WSManagerState) (i : Nat)
    (t : SubscriptionType) : WSManagerState :=
  let conns1 := modifyAt i (fun cl =>
      { cl with subscriptions := cl.subscriptions.filter (fun u => u ≠ t),
                websocket := send_personal_message (.unsubscriptionConfirmed t) cl.websocket })
    s.active_connections
  cleanup_unused_tasks { s with active_connections := conns1 }

/-- Outcome of one iteration of `_price_update_loop`: either the loop `break`s
(no subscribers left), or it runs, possibly broadcasting, and sleeps. -/
inductive TickResult
  | stopped
  | ran (s : WSManagerState) (delivered : Bool) (sleepSeconds : Nat)
deriving DecidableEq, Repr

/-- Did the iteration leave the loop running? -/
def TickResult.running : TickResult → Bool
  | .stopped => false
  | .ran _ _ _ => true

/-- The sleep chosen by the iteration, when it ran. -/
def TickResult.sleep : TickResult → Option Nat
  | .stopped => none
  | .ran _ _ sl => some sl

/-- Was a broadcast issued by the iteration? -/
def TickResult.delivered : TickResult → Bool
  | .stopped => false
  | .ran _ d _ => d

/-- The state after the iteration, when it ran. -/
def TickResult.state : TickResult → Option WSManagerState
  | .stopped => none
  | .ran s _ _ => some s

/-- One iteration of `_price_update_loop coin`: break when nobody subscribes to
price updates for `coin`; otherwise take the result of `_fetch_price_data`
(`none` models every fetch failure — the helper catches its own exceptions and
returns `None`), and on success update the cache, record the update time,
broadcast, and sleep 30 s; on failure broadcast nothing and sleep the same
30 s. -/
def price_update_loop_tick (s : WSManagerState) (coin : Str)
    (fetched : Option PriceData) (now : Nat) : TickResult :=
  if !(hasFeedSubscribers s.active_connections .price_updates coin) then .stopped
  else
    match fetched with
    | some d =>
        let s1 := { s with price_cache := assocSet coin d s.price_cache,
                           last_update := assocSet coin now s.last_update }
        let s2 := broadcast_to_subscribers s1 (.priceUpdate coin d now)
                    .price_updates (some coin)
        .ran s2 true 30
    | none => .ran s false 30

/-- The `get_current_prices` request handler's payload: for each requested
coin present in `price_cache`, its cached snapshot. -/
def getCurrentPrices (s : WSManagerState) (coins : List Str) : List (Str × PriceData) :=
  coins.foldl (fun acc c =>
    match assocLookup c s.price_cache with
    | some d => assocSet c d acc
    | none => acc) []

/-- `SubscriptionType(value)`: the enum constructor by wire value; an unknown
value raises `ValueError`, modelled as `none`. -/
def parseSubscriptionType (v : Str) : Option SubscriptionType :=
  if v = "price_updates".toList then some .price_updates
  else if v = "portfolio_updates".toList then some .portfolio_updates
  else if v = "news_updates".toList then some .news_updates
  else if v = "alerts".toList then some .alerts
  else if v = "technical_indicators".toList then some .technical_indicators
  else none

/-- An inbound control message of the `websocket_endpoint` dispatch loop, with
the subscription type still in wire form (it is parsed inside the loop). -/
inductive InMessage
  | subscribe (subscription_type : Str) (coins : List Str)
  | unsubscribe (subscription_type : Str)
  | ping
  | getPrices (coins : List Str)

/-- One step of the `websocket_endpoint` dispatch loop for the connection at
position `i`.  A `subscription_type` value outside the enum makes
`SubscriptionType(...)` raise `ValueError`, which escapes to the endpoint's
catch-all handler: the client is disconnected (no error message is sent).  When
the held client object is no longer registered, `disconnect` degenerates to a
bare cleanup. -/
def handleMessage (s : WSManagerState) (i : Nat) : InMessage → WSManagerState
  | .subscribe rawT coins =>
      match parseSubscriptionType rawT with
      | some t => subscribe_client s i t coins
      | none =>
          match s.active_connections.get? i with
          | some cl => disconnect s cl
          | none => cleanup_unused_tasks s
  | .unsubscribe rawT =>
      match parseSubscriptionType rawT with
      | some t => unsubscribe_client s i t
      | none =>
          match s.active_connections.get? i with
          | some cl => disconnect s cl
          | none => cleanup_unused_tasks s
  | .ping =>
      let conns := modifyAt i (fun cl =>
          { cl with websocket := send_personal_message .pong cl.websocket })
        s.active_connections
      { s with active_connections := conns }
  | .getPrices coins =>
      let conns := modifyAt i (fun cl =>
          { cl with websocket :=
              send_personal_message (.currentPrices (getCurrentPrices s coins)) cl.websocket })
        s.active_connections
      { s with active_connections := conns }

/-- Environment event: the transport of the connection at position `i` dies
(subsequent `send_text` calls on it raise). -/
def closeSock (s : WSManagerState) (i : Nat) : WSManagerState :=
  let conns := modifyAt i (fun cl =>
      { cl with websocket := { cl.websocket with closed := true } })
    s.active_connections
  { s with active_connections := conns }

/-- States reachable from a fresh `WebSocketManager` by the hub operations, the
endpoint dispatch loop, price-poller iterations, and transport deaths. -/
inductive Reachable : WSManagerState → Prop
  | init : Reachable initialState
  | connect {s} (client_id : Str) (sockId : Nat) :
      Reachable s → Reachable (connect s client_id sockId)
  | handle {s} (i : Nat) (m : InMessage) :
      Reachable s → Reachable (handleMessage s i m)
  | disconnectEvt {s} (cl : ClientSubscription) :
      Reachable s → Reachable (disconnect s cl)
  | tick {s s' : WSManagerState} (coin : Str) (fetched : Option PriceData)
      (now : Nat) (d : Bool) (sl : Nat) :
      Reachable s → price_update_loop_tick s coin fetched now = .ran s' d sl →
      Reachable s'
  | sockClose {s} (i : Nat) :
      Reachable s → Reachable (closeSock s i)

/-! ### Generic list and string lemmas -/

/-- Number of occurrences of an element in a list. -/
def countOcc [DecidableEq α] (a : α) : List α → Nat
  | [] => 0
  | b :: rest => (if b = a then 1 else 0) + countOcc a rest

theorem get?_map (f : α → β) (l : List α) (n : Nat) :
    (l.map f).get? n = Option.map f (l.get? n) := by
  simp [List.get?_eq_getElem?]

theorem countOcc_eq_zero_iff [DecidableEq α] (a : α) (l : List α) :
    countOcc a l = 0 ↔ a ∉ l := by
  induction l with
  | nil => simp [countOcc]
  | cons b rest ih =>
    by_cases hb : b = a
    · subst hb; simp [countOcc]
    · simp [countOcc, hb, ih]
      exact fun _ hab => hb hab.symm

theorem not_mem_removeFirst [DecidableEq α] (a : α) (l : List α)
    (h : countOcc a l ≤ 1) : a ∉ removeFirst a l := by
  induction l with
  | nil => simp [removeFirst]
  | cons b rest ih =>
    by_cases hb : b = a
    · subst hb
      simp only [removeFirst, if_pos rfl]
      simp [countOcc] at h
      exact (countOcc_eq_zero_iff b rest).mp h
    · simp only [removeFirst, if_neg hb]
      intro hmem
      rcases List.mem_cons.mp hmem with h1 | h1
      · exact hb h1.symm
      · exact ih (by simpa [countOcc, hb] using h) h1

theorem removeFirst_sublist [DecidableEq α] (a : α) (l : List α) :
    (removeFirst a l).Sublist l := by
  induction l with
  | nil => simp [removeFirst]
  | cons b rest ih =>
    by_cases hb : b = a
    · simp only [removeFirst, if_pos hb]
      exact List.sublist_cons_self b rest
    · simp only [removeFirst, if_neg hb]
      exact ih.cons₂ b

theorem mem_of_mem_removeFirst [DecidableEq α] {a x : α} {l : List α}
    (h : x ∈ removeFirst a l) : x ∈ l :=
  (removeFirst_sublist a l).mem h

theorem modifyAt_get?_self (i : Nat) (f : α → α) (l : List α) :
    (modifyAt i f l).get? i = Option.map f (l.get? i) := by
  induction l generalizing i with
  | nil => simp [modifyAt]
  | cons b rest ih =>
    cases i with
    | zero => simp [modifyAt]
    | succ j => simpa [modifyAt] using ih j

theorem modifyAt_get?_ne (i j : Nat) (f : α → α) (l : List α) (h : i ≠ j) :
    (modifyAt i f l).get? j = l.get? j := by
  induction l generalizing i j with
  | nil => simp [modifyAt]
  | cons b rest ih =>
    cases i with
    | zero =>
      cases j with
      | zero => exact (h rfl).elim
      | succ j2 => simp [modifyAt]
    | succ i2 =>
      cases j with
      | zero => simp [modifyAt]
      | succ j2 => simpa [modifyAt] using ih i2 j2 (fun he => h (by rw [he]))

theorem modifyAt_length (i : Nat) (f : α → α) (l : List α) :
    (modifyAt i f l).length = l.length := by
  induction l generalizing i with
  | nil => simp [modifyAt]
  | cons b rest ih =>
    cases i with
    | zero => simp [modifyAt]
    | succ j => simpa [modifyAt] using ih j

theorem filter_not_filter (p : α → Bool) (l : List α) :
    (l.filter (fun x => !(p x))).filter p = [] := by
  induction l with
  | nil => rfl
  | cons b rest ih => by_cases hb : p b <;> simp [hb, ih]

theorem filter_not_idem (p : α → Bool) (l : List α) :
    (l.filter (fun x => !(p x))).filter (fun x => !(p x)) = l.filter (fun x => !(p x)) := by
  induction l with
  | nil => rfl
  | cons b rest ih => by_cases hb : p b <;> simp [hb, ih]

theorem isPrefixOf_append_self (p s : Str) : p.isPrefixOf (p ++ s) = true := by
  induction p with
  | nil => cases s <;> rfl
  | cons a rest ih => simp [List.isPrefixOf, ih]

theorem replaceAllAux_no_occ (pat repl : Str) :
    ∀ fuel s, s.length ≤ fuel → containsSub pat s = false →
      replaceAllAux pat repl fuel s = s := by
  intro fuel
  induction fuel with
  | zero =>
    intro s h _
    cases s with
    | nil => rfl
    | cons a rest => simp at h
  | succ f ih =>
    intro s h hc
    cases s with
    | nil => rfl
    | cons a rest =>
      simp only [containsSub, Bool.or_eq_false_iff] at hc
      simp only [replaceAllAux, hc.1]
      simp only [Bool.false_eq_true, if_false, List.cons.injEq, true_and]
      exact ih rest (by simpa using Nat.le_of_succ_le_succ h) hc.2

theorem containsSub_of_isPrefixOf (pat s : Str) (h : pat.isPrefixOf s = true) :
    containsSub pat s = true := by
  cases s with
  | nil => simp [containsSub]; simp at h; exact h
  | cons a rest => simp [containsSub, h]

theorem pyReplace_strip (pat c : Str) (hne : pat ≠ [])
    (hc : containsSub pat c = false) : pyReplace (pat ++ c) pat [] = c := by
  cases pat with
  | nil => exact (hne rfl).elim
  | cons p ps =>
    show replaceAllAux (p :: ps) [] ((p :: ps) ++ c).length ((p :: ps) ++ c) = c
    have hlen : ((p :: ps) ++ c).length = (ps.length + c.length) + 1 := by
      simp [List.length_append, List.length_cons]
    rw [hlen]
    show replaceAllAux (p :: ps) [] ((ps.length + c.length) + 1) (p :: (ps ++ c)) = c
    have hpre : (p :: ps).isPrefixOf (p :: (ps ++ c)) = true :=
      isPrefixOf_append_self (p :: ps) c
    simp only [replaceAllAux, hpre, if_pos rfl, List.nil_append]
    have hdrop : List.drop (p :: ps).length (p :: (ps ++ c)) = c := by
      simp only [List.length_cons, List.drop_succ_cons]
      exact List.drop_left ps c
    rw [hdrop]
    exact replaceAllAux_no_occ (p :: ps) [] (ps.length + c.length) c
      (Nat.le_add_left c.length ps.length) hc


/-! ### Association-list and cleanup characterisation lemmas -/

theorem assocContains_cons {β : Type} (k : Str) (kv : Str × β) (rest : List (Str × β)) :
    assocContains k (kv :: rest) = (decide (kv.1 = k) || assocContains k rest) := rfl

theorem assocContains_filter {β : Type} (p : Str → Bool) (k : Str)
    (l : List (Str × β)) :
    assocContains k (l.filter (fun kt => p kt.1)) = (assocContains k l && p k) := by
  induction l with
  | nil => rfl
  | cons kv rest ih =>
    rw [List.filter_cons]
    by_cases hp : p kv.1 = true
    · rw [if_pos hp]
      by_cases hk : kv.1 = k
      · have hpk : p k = true := hk ▸ hp
        rw [assocContains_cons, assocContains_cons, decide_eq_true hk, hpk]
        simp
      · rw [assocContains_cons, assocContains_cons, decide_eq_false hk]
        simp only [Bool.false_or]
        exact ih
    · rw [if_neg hp]
      have hp2 : p kv.1 = false := by revert hp; cases p kv.1 <;> simp
      by_cases hk : kv.1 = k
      · have hpk : p k = false := hk ▸ hp2
        rw [assocContains_cons, decide_eq_true hk, ih, hpk]
        simp
      · rw [assocContains_cons, decide_eq_false hk]
        simp only [Bool.false_or]
        exact ih

theorem mem_map_fst_filter {β : Type} (p : Str → Bool) (k : Str)
    (l : List (Str × β)) :
    k ∈ (l.filter (fun kt => p kt.1)).map Prod.fst ↔
      (assocContains k l = true ∧ p k = true) := by
  induction l with
  | nil => simp [assocContains]
  | cons kv rest ih =>
    rw [List.filter_cons]
    by_cases hp : p kv.1 = true
    · rw [if_pos hp]
      by_cases hk : kv.1 = k
      · have hpk : p k = true := hk ▸ hp
        rw [List.map_cons]
        constructor
        · intro _
          refine ⟨?_, hpk⟩
          rw [assocContains_cons, decide_eq_true hk]
          simp
        · intro _
          exact List.mem_cons.mpr (Or.inl hk.symm)
      · rw [List.map_cons]
        constructor
        · intro hmem
          rcases List.mem_cons.mp hmem with he | hm
          · exact (hk he.symm).elim
          · have h2 := ih.mp hm
            refine ⟨?_, h2.2⟩
            rw [assocContains_cons, h2.1]
            simp
        · intro hand
          have ha2 : assocContains k rest = true := by
            have h3 := hand.1
            rw [assocContains_cons, decide_eq_false hk] at h3
            simpa using h3
          exact List.mem_cons.mpr (Or.inr (ih.mpr ⟨ha2, hand.2⟩))
    · rw [if_neg hp]
      have hp2 : p kv.1 = false := by revert hp; cases p kv.1 <;> simp
      by_cases hk : kv.1 = k
      · have hpk : p k = false := hk ▸ hp2
        rw [ih, hpk]
        simp
      · rw [ih]
        constructor
        · intro hand
          refine ⟨?_, hand.2⟩
          rw [assocContains_cons, hand.1]
          simp
        · intro hand
          refine ⟨?_, hand.2⟩
          have h3 := hand.1
          rw [assocContains_cons, decide_eq_false hk] at h3
          simpa using h3

theorem cleanup_connections (s : WSManagerState) :
    (cleanup_unused_tasks s).active_connections = s.active_connections := rfl

theorem cleanup_price_cache (s : WSManagerState) :
    (cleanup_unused_tasks s).price_cache = s.price_cache := rfl

theorem cleanup_tasks_contains (s : WSManagerState) (k : Str) :
    assocContains k (cleanup_unused_tasks s).update_tasks =
      (assocContains k s.update_tasks && !(shouldRemove s.active_connections k)) := by
  show assocContains k (s.update_tasks.filter
      (fun kt => !(shouldRemove s.active_connections kt.1))) = _
  exact assocContains_filter (fun x => !(shouldRemove s.active_connections x)) k s.update_tasks

theorem cleanup_cancelled_mem (s : WSManagerState) (k : Str) :
    k ∈ (cleanup_unused_tasks s).cancelled_tasks ↔
      (k ∈ s.cancelled_tasks ∨
        (assocContains k s.update_tasks = true ∧
          shouldRemove s.active_connections k = true)) := by
  show k ∈ s.cancelled_tasks ++
      (s.update_tasks.filter (fun kt => shouldRemove s.active_connections kt.1)).map Prod.fst ↔ _
  rw [List.mem_append, mem_map_fst_filter]

theorem cleanup_idem (s : WSManagerState) :
    cleanup_unused_tasks (cleanup_unused_tasks s) = cleanup_unused_tasks s := by
  cases s with
  | mk conns cache lu tasks canc =>
    simp only [cleanup_unused_tasks]
    rw [filter_not_idem, filter_not_filter]
    simp

/-! ### Decoding of task keys in the cleanup scan -/

theorem price_not_prefix_of_indicators (c : Str) :
    ("price_".toList).isPrefixOf ("indicators_".toList ++ c) = false := by
  show (('p' == 'i') && (("rice_".toList).isPrefixOf ("ndicators_".toList ++ c))) = false
  rw [show (('p' == 'i') : Bool) = false from rfl]
  simp

theorem shouldRemove_price_key (conns : List ClientSubscription) (c : Str)
    (hc : containsSub "price_".toList c = false) :
    shouldRemove conns ("price_".toList ++ c) =
      !(hasFeedSubscribers conns .price_updates c) := by
  unfold shouldRemove
  rw [if_pos (isPrefixOf_append_self _ _), pyReplace_strip _ _ (by decide) hc]

theorem shouldRemove_indicators_key (conns : List ClientSubscription) (c : Str)
    (hc : containsSub "indicators_".toList c = false) :
    shouldRemove conns ("indicators_".toList ++ c) =
      !(hasFeedSubscribers conns .technical_indicators c) := by
  have h1 : ¬ (("price_".toList).isPrefixOf ("indicators_".toList ++ c) = true) := by
    rw [price_not_prefix_of_indicators]
    exact Bool.false_ne_true
  unfold shouldRemove
  rw [if_neg h1, if_pos (isPrefixOf_append_self _ _), pyReplace_strip _ _ (by decide) hc]

theorem shouldRemove_news_key (conns : List ClientSubscription) :
    shouldRemove conns "news_updates".toList = !(hasNewsSubscribers conns) := by
  unfold shouldRemove
  rw [if_neg (by decide), if_neg (by decide), if_pos rfl]

/-! ### Task-map preservation lemmas -/

/-- The keys of the poller task map. -/
def taskKeys (s : WSManagerState) : List Str := s.update_tasks.map Prod.fst

theorem mem_map_fst_iff_assocContains {β : Type} (k : Str) (l : List (Str × β)) :
    k ∈ l.map Prod.fst ↔ assocContains k l = true := by
  induction l with
  | nil => simp [assocContains]
  | cons kv rest ih =>
    rw [List.map_cons, List.mem_cons, assocContains_cons]
    constructor
    · intro h
      rcases h with he | hm
      · rw [decide_eq_true he.symm]
        simp
      · rw [ih.mp hm]
        simp
    · intro h
      by_cases hk : kv.1 = k
      · exact Or.inl hk.symm
      · rw [decide_eq_false hk] at h
        simp only [Bool.false_or] at h
        exact Or.inr (ih.mpr h)

theorem insertTask_connections (s : WSManagerState) (key : Str) (loop : TaskLoop) :
    (insertTask s key loop).active_connections = s.active_connections := by
  unfold insertTask
  split <;> rfl

theorem insertTask_tasks_eq (s t2 : WSManagerState) (h : s.update_tasks = t2.update_tasks)
    (key : Str) (loop : TaskLoop) :
    (insertTask s key loop).update_tasks = (insertTask t2 key loop).update_tasks := by
  unfold insertTask
  by_cases hc : assocContains key s.update_tasks = true
  · rw [if_pos hc, if_pos (h ▸ hc)]
    exact h
  · rw [if_neg hc, if_neg (h ▸ hc)]
    show s.update_tasks ++ _ = t2.update_tasks ++ _
    rw [h]

theorem insertTask_keys_nodup (s : WSManagerState) (key : Str) (loop : TaskLoop)
    (h : (taskKeys s).Nodup) : (taskKeys (insertTask s key loop)).Nodup := by
  unfold insertTask taskKeys
  by_cases hc : assocContains key s.update_tasks = true
  · rw [if_pos hc]
    exact h
  · rw [if_neg hc]
    show (( s.update_tasks ++ [(key, loop)]).map Prod.fst).Nodup
    rw [List.map_append, List.nodup_append]
    refine ⟨h, by simp, ?_⟩
    intro a ha hb
    simp only [List.map_cons, List.map_nil, List.mem_singleton] at hb
    subst hb
    exact hc (mem_map_fst_iff_assocContains a s.update_tasks |>.mp ha)

theorem foldl_insertTask_connections (kf : Str → Str) (bf : Str → TaskLoop) :
    ∀ (coins : List Str) (s : WSManagerState),
      (coins.foldl (fun s2 c => insertTask s2 (kf c) (bf c)) s).active_connections =
        s.active_connections := by
  intro coins
  induction coins with
  | nil => intro s; rfl
  | cons c rest ih =>
    intro s
    rw [List.foldl_cons, ih, insertTask_connections]

theorem foldl_insertTask_tasks_eq (kf : Str → Str) (bf : Str → TaskLoop) :
    ∀ (coins : List Str) (s t2 : WSManagerState), s.update_tasks = t2.update_tasks →
      (coins.foldl (fun s2 c => insertTask s2 (kf c) (bf c)) s).update_tasks =
        (coins.foldl (fun s2 c => insertTask s2 (kf c) (bf c)) t2).update_tasks := by
  intro coins
  induction coins with
  | nil => intro s t2 h; exact h
  | cons c rest ih =>
    intro s t2 h
    rw [List.foldl_cons, List.foldl_cons]
    exact ih _ _ (insertTask_tasks_eq s t2 h (kf c) (bf c))

theorem foldl_insertTask_keys_nodup (kf : Str → Str) (bf : Str → TaskLoop) :
    ∀ (coins : List Str) (s : WSManagerState), (taskKeys s).Nodup →
      (taskKeys (coins.foldl (fun s2 c => insertTask s2 (kf c) (bf c)) s)).Nodup := by
  intro coins
  induction coins with
  | nil => intro s h; exact h
  | cons c rest ih =>
    intro s h
    rw [List.foldl_cons]
    exact ih _ (insertTask_keys_nodup s (kf c) (bf c) h)

theorem start_update_tasks_connections (s : WSManagerState) (t : SubscriptionType)
    (coins : List Str) :
    (start_update_tasks s t coins).active_connections = s.active_connections := by
  cases t with
  | price_updates =>
    exact foldl_insertTask_connections (fun c => "price_".toList ++ c)
      (fun c => .priceLoop c) coins s
  | news_updates => exact insertTask_connections s _ _
  | technical_indicators =>
    exact foldl_insertTask_connections (fun c => "indicators_".toList ++ c)
      (fun c => .indicatorsLoop c) coins s
  | portfolio_updates => rfl
  | alerts => rfl

theorem start_update_tasks_tasks_eq (s t2 : WSManagerState)
    (h : s.update_tasks = t2.update_tasks) (t : SubscriptionType) (coins : List Str) :
    (start_update_tasks s t coins).update_tasks =
      (start_update_tasks t2 t coins).update_tasks := by
  cases t with
  | price_updates => exact foldl_insertTask_tasks_eq _ _ coins s t2 h
  | news_updates => exact insertTask_tasks_eq s t2 h _ _
  | technical_indicators => exact foldl_insertTask_tasks_eq _ _ coins s t2 h
  | portfolio_updates => exact h
  | alerts => exact h

theorem start_update_tasks_keys_nodup (s : WSManagerState) (t : SubscriptionType)
    (coins : List Str) (h : (taskKeys s).Nodup) :
    (taskKeys (start_update_tasks s t coins)).Nodup := by
  cases t with
  | price_updates => exact foldl_insertTask_keys_nodup _ _ coins s h
  | news_updates => exact insertTask_keys_nodup s _ _ h
  | technical_indicators => exact foldl_insertTask_keys_nodup _ _ coins s h
  | portfolio_updates => exact h
  | alerts => exact h

theorem cleanup_keys_nodup (s : WSManagerState) (h : (taskKeys s).Nodup) :
    (taskKeys (cleanup_unused_tasks s)).Nodup := by
  unfold taskKeys at h ⊢
  exact h.sublist ((List.filter_sublist s.update_tasks).map Prod.fst)

theorem subscribe_client_tasks (s : WSManagerState) (i : Nat) (t : SubscriptionType)
    (coins : List Str) :
    (subscribe_client s i t coins).update_tasks =
      (start_update_tasks s t coins).update_tasks := by
  simp only [subscribe_client]
  apply start_update_tasks_tasks_eq
  rfl

theorem unsubscribe_client_tasks_keys_nodup (s : WSManagerState) (i : Nat)
    (t : SubscriptionType) (h : (taskKeys s).Nodup) :
    (taskKeys (unsubscribe_client s i t)).Nodup := by
  simp only [unsubscribe_client]
  exact cleanup_keys_nodup _ h

theorem disconnect_keys_nodup (s : WSManagerState) (cl : ClientSubscription)
    (h : (taskKeys s).Nodup) : (taskKeys (disconnect s cl)).Nodup := by
  unfold disconnect
  split
  · exact cleanup_keys_nodup _ h
  · exact cleanup_keys_nodup _ h

theorem tick_tasks (s s' : WSManagerState) (coin : Str) (fetched : Option PriceData)
    (now : Nat) (d : Bool) (sl : Nat)
    (h : price_update_loop_tick s coin fetched now = .ran s' d sl) :
    s'.update_tasks = s.update_tasks := by
  unfold price_update_loop_tick at h
  split at h
  · exact absurd h (by simp)
  · cases fetched with
    | some pd =>
      simp only [TickResult.ran.injEq] at h
      rw [← h.1]
      rfl
    | none =>
      simp only [TickResult.ran.injEq] at h
      rw [← h.1]

theorem handleMessage_keys_nodup (s : WSManagerState) (i : Nat) (m : InMessage)
    (h : (taskKeys s).Nodup) : (taskKeys (handleMessage s i m)).Nodup := by
  cases m with
  | subscribe rawT coins =>
    simp only [handleMessage]
    cases hp : parseSubscriptionType rawT with
    | some t =>
      show (taskKeys (subscribe_client s i t coins)).Nodup
      unfold taskKeys
      rw [subscribe_client_tasks]
      exact start_update_tasks_keys_nodup s t coins h
    | none =>
      cases hg : s.active_connections.get? i with
      | some cl => exact disconnect_keys_nodup s cl h
      | none => exact cleanup_keys_nodup s h
  | unsubscribe rawT =>
    simp only [handleMessage]
    cases hp : parseSubscriptionType rawT with
    | some t => exact unsubscribe_client_tasks_keys_nodup s i t h
    | none =>
      cases hg : s.active_connections.get? i with
      | some cl => exact disconnect_keys_nodup s cl h
      | none => exact cleanup_keys_nodup s h
  | ping => exact h
  | getPrices coins => exact h

theorem reachable_keys_nodup (s : WSManagerState) (h : Reachable s) :
    (taskKeys s).Nodup := by
  induction h with
  | init => exact List.nodup_nil
  | connect cid sid _ ih => exact ih
  | handle i m _ ih => exact handleMessage_keys_nodup _ i m ih
  | disconnectEvt cl _ ih => exact disconnect_keys_nodup _ cl ih
  | tick coin fetched now d sl _ he ih =>
    unfold taskKeys
    rw [tick_tasks _ _ coin fetched now d sl he]
    exact ih
  | sockClose i _ ih => exact ih

/-! ### Delivery and subscription access lemmas -/

theorem send_personal_message_closed (m : Msg) (ws : Sock) :
    (send_personal_message m ws).closed = ws.closed := by
  unfold send_personal_message
  split <;> rfl

theorem send_personal_message_sent_open (m : Msg) (ws : Sock)
    (h : ws.closed = false) :
    (send_personal_message m ws).sent = ws.sent ++ [m] := by
  unfold send_personal_message
  rw [h]
  simp

theorem send_personal_message_sockId (m : Msg) (ws : Sock) :
    (send_personal_message m ws).sockId = ws.sockId := by
  unfold send_personal_message
  split <;> rfl

theorem mem_addToSet_self [DecidableEq α] (x : α) (l : List α) : x ∈ addToSet x l := by
  unfold addToSet
  split
  · assumption
  · simp

theorem mem_addToSet_of_mem [DecidableEq α] {x y : α} {l : List α} (h : y ∈ l) :
    y ∈ addToSet x l := by
  unfold addToSet
  split
  · exact h
  · simp [h]

theorem broadcast_get? (s : WSManagerState) (m : Msg) (t : SubscriptionType)
    (coin : Option Str) (i : Nat) (cl : ClientSubscription)
    (h : s.active_connections.get? i = some cl) :
    (broadcast_to_subscribers s m t coin).active_connections.get? i =
      some (if eligibleForBroadcast t coin cl then
              { cl with websocket := send_personal_message m cl.websocket }
            else cl) := by
  show (s.active_connections.map _).get? i = _
  rw [get?_map, h]
  rfl

theorem broadcast_length (s : WSManagerState) (m : Msg) (t : SubscriptionType)
    (coin : Option Str) :
    (broadcast_to_subscribers s m t coin).active_connections.length =
      s.active_connections.length := by
  show (s.active_connections.map _).length = _
  rw [List.length_map]

theorem map_modifyAt_invariant (g : α → β) (f : α → α) (hf : ∀ a, g (f a) = g a) :
    ∀ (i : Nat) (l : List α), (modifyAt i f l).map g = l.map g := by
  intro i l
  induction l generalizing i with
  | nil => simp [modifyAt]
  | cons b rest ih =>
    cases i with
    | zero => simp [modifyAt, hf b]
    | succ j => simp [modifyAt, ih j]

theorem subscribe_client_get? (s : WSManagerState) (i : Nat) (t : SubscriptionType)
    (coins : List Str) (cl : ClientSubscription)
    (h : s.active_connections.get? i = some cl) :
    (subscribe_client s i t coins).active_connections.get? i =
      some { cl with
        subscriptions := addToSet t cl.subscriptions,
        watched_coins := coins.foldl (fun w c2 => addToSet c2 w) cl.watched_coins,
        websocket := send_personal_message (.subscriptionConfirmed t) cl.websocket } := by
  simp only [subscribe_client]
  rw [start_update_tasks_connections]
  show (modifyAt i _ (modifyAt i _ s.active_connections)).get? i = _
  rw [modifyAt_get?_self, modifyAt_get?_self, h]
  rfl

/-! ### FeedKey-level view of the poller lifecycle -/

/-- The task key that serves a FeedKey, for the three feed types the manager
polls for (`price_{coin}` / `indicators_{coin}` / shared `news_updates`). -/
def pollerFeedKeyStr : SubscriptionType → Str → Option Str
  | .price_updates, c => some ("price_".toList ++ c)
  | .technical_indicators, c => some ("indicators_".toList ++ c)
  | .news_updates, _ => some "news_updates".toList
  | _, _ => none

/-- The subscriber test the manager uses for a FeedKey (instrument-scoped for
price and indicator feeds, global for news). -/
def feedHasSubscribers (conns : List ClientSubscription) :
    SubscriptionType → Str → Bool
  | .news_updates, _ => hasNewsSubscribers conns
  | t, c => hasFeedSubscribers conns t c

theorem shouldRemove_poll_key (conns : List ClientSubscription)
    (ft : SubscriptionType) (c key : Str)
    (hc1 : containsSub "price_".toList c = false)
    (hc2 : containsSub "indicators_".toList c = false)
    (hkey : pollerFeedKeyStr ft c = some key) :
    shouldRemove conns key = !(feedHasSubscribers conns ft c) := by
  cases ft with
  | price_updates =>
    simp only [pollerFeedKeyStr, Option.some.injEq] at hkey
    rw [← hkey]
    rw [shouldRemove_price_key conns c hc1]
    rfl
  | technical_indicators =>
    simp only [pollerFeedKeyStr, Option.some.injEq] at hkey
    rw [← hkey]
    rw [shouldRemove_indicators_key conns c hc2]
    rfl
  | news_updates =>
    simp only [pollerFeedKeyStr, Option.some.injEq] at hkey
    rw [← hkey]
    rw [shouldRemove_news_key conns]
    rfl
  | portfolio_updates => simp [pollerFeedKeyStr] at hkey
  | alerts => simp [pollerFeedKeyStr] at hkey

theorem cleanup_poll_key_spec (s0 : WSManagerState) (ft : SubscriptionType)
    (c key : Str)
    (hc1 : containsSub "price_".toList c = false)
    (hc2 : containsSub "indicators_".toList c = false)
    (hkey : pollerFeedKeyStr ft c = some key) :
    (feedHasSubscribers (cleanup_unused_tasks s0).active_connections ft c = false →
       assocContains key (cleanup_unused_tasks s0).update_tasks = false ∧
       (assocContains key s0.update_tasks = true →
         key ∈ (cleanup_unused_tasks s0).cancelled_tasks)) ∧
    (feedHasSubscribers (cleanup_unused_tasks s0).active_connections ft c = true →
       assocContains key (cleanup_unused_tasks s0).update_tasks =
         assocContains key s0.update_tasks ∧
       (key ∈ (cleanup_unused_tasks s0).cancelled_tasks ↔ key ∈ s0.cancelled_tasks)) := by
  have hsr := shouldRemove_poll_key s0.active_connections ft c key hc1 hc2 hkey
  rw [cleanup_connections]
  constructor
  · intro hno
    rw [hno] at hsr
    constructor
    · rw [cleanup_tasks_contains, hsr]
      simp
    · intro hhad
      rw [cleanup_cancelled_mem]
      exact Or.inr ⟨hhad, hsr⟩
  · intro hyes
    rw [hyes] at hsr
    constructor
    · rw [cleanup_tasks_contains, hsr]
      simp
    · rw [cleanup_cancelled_mem]
      constructor
      · intro hor
        rcases hor with h1 | h1
        · exact h1
        · rw [hsr] at h1
          exact absurd h1.2 (by simp)
      · exact Or.inl

/-! ### Concrete scenario states used by witnesses and counterexamples -/

def bitcoinC : Str := "bitcoin".toList

def ethereumC : Str := "ethereum".toList

/-- An instrument key that contains the task-key prefix as a substring. -/
def trickyCoin : Str := "price_btc".toList

def demoData : PriceData :=
  { price := 98500, price_change_24h := 2, volume_24h := 7, market_cap := 9 }

/-- One connection subscribed to price updates for bitcoin, built through the
endpoint dispatch loop. -/
def c4State : WSManagerState :=
  handleMessage (connect initialState "a".toList 1) 0
    (.subscribe "price_updates".toList [bitcoinC])

/-- The connection record held inside `c4State`. -/
def c4ClientSock : Sock :=
  { sockId := 1, closed := false,
    sent := [.connectionEstablished "a".toList, .subscriptionConfirmed .price_updates] }

def c4Client : ClientSubscription :=
  { client_id := "a".toList, websocket := c4ClientSock,
    subscriptions := [.price_updates], watched_coins := [bitcoinC], user_id := none }

/-- Same connection additionally subscribed to technical indicators for
ethereum: the shared watched set now makes it a price subscriber of ethereum. -/
def c1State : WSManagerState :=
  handleMessage c4State 0 (.subscribe "technical_indicators".toList [ethereumC])

/-- Connection a subscribed to price updates for `trickyCoin`, plus a second,
unrelated connection b. -/
def c2State0 : WSManagerState :=
  connect (handleMessage (connect initialState "a".toList 1) 0
    (.subscribe "price_updates".toList [trickyCoin])) "b".toList 2

/-- State after connection b sends an unrelated news unsubscribe, which runs
the task cleanup scan. -/
def c2State : WSManagerState := unsubscribe_client c2State0 1 .news_updates

/-- Two connections both subscribed to price updates for bitcoin. -/
def c2wState : WSManagerState :=
  handleMessage (handleMessage (connect (connect initialState "a".toList 1) "b".toList 2)
      0 (.subscribe "price_updates".toList [bitcoinC]))
    1 (.subscribe "price_updates".toList [bitcoinC])

/-- `c4State` after one successful poller tick stored `demoData` in the cache. -/
def c9Mid : WSManagerState :=
  match price_update_loop_tick c4State bitcoinC (some demoData) 7 with
  | .ran s2 _ _ => s2
  | .stopped => c4State

/-- `c9Mid` after its only subscriber unsubscribed (the poller is torn down). -/
def c9State : WSManagerState := unsubscribe_client c9Mid 0 .price_updates

/-- A connection whose transport has died (sends on it raise). -/
def clientA : ClientSubscription :=
  { client_id := "a".toList, websocket := { sockId := 1, closed := true, sent := [] },
    subscriptions := [.price_updates], watched_coins := [bitcoinC], user_id := none }

/-- A healthy connection subscribed to the same feed. -/
def clientB : ClientSubscription :=
  { client_id := "b".toList, websocket := { sockId := 2, closed := false, sent := [] },
    subscriptions := [.price_updates], watched_coins := [bitcoinC], user_id := none }

/-- A connection subscribed only to news (not to the bitcoin price feed). -/
def clientC : ClientSubscription :=
  { client_id := "c".toList, websocket := { sockId := 3, closed := false, sent := [] },
    subscriptions := [.news_updates], watched_coins := [], user_id := none }

/-- Broadcast scenario: one dead subscriber, one healthy subscriber, one
non-subscriber. -/
def c7State : WSManagerState :=
  { active_connections := [clientA, clientB, clientC], price_cache := [],
    last_update := [], update_tasks := [], cancelled_tasks := [] }

/-- A healthy connection with one undelivered message already pending. -/
def busyClient : ClientSubscription :=
  { client_id := "x".toList, websocket := { sockId := 4, closed := false, sent := [.pong] },
    subscriptions := [.price_updates], watched_coins := [bitcoinC], user_id := none }

def c5State : WSManagerState :=
  { active_connections := [busyClient], price_cache := [], last_update := [],
    update_tasks := [], cancelled_tasks := [] }

/-- A price-update message used by delivery scenarios. -/
def demoMsg : Msg := .priceUpdate bitcoinC demoData 9

/-! ### Claims -/

/-- C1 (amended): after any sequence of connect / subscribe / unsubscribe /
disconnect operations (and poller ticks and transport deaths), the hub's task
map holds at most one poller task per FeedKey: its key list is duplicate-free,
and every FeedKey encodes to one fixed key string.  The second half of the
original claim — a subscribed FeedKey always has a poller — is refuted by
`C1_counterexample`. -/
theorem C1_at_most_one_poller_per_key (s : WSManagerState) (h : Reachable s) :
    (taskKeys s).Nodup :=
  reachable_keys_nodup s h

/-- Witness for C1 at a concrete reachable state holding two poller tasks. -/
theorem C1_at_most_one_poller_per_key_witness : (taskKeys c1State).Nodup :=
  C1_at_most_one_poller_per_key c1State
    (Reachable.handle 0 _ (Reachable.handle 0 _
      (Reachable.connect "a".toList 1 Reachable.init)))

/-- C1 counterexample: in the reachable state `c1State`, connection a is a
subscriber of the FeedKey (PriceUpdates, "ethereum") under the manager's own
subscriber test (it subscribes to price updates and watches "ethereum" through
the shared watched-coin set), yet no poller task for that key exists — refuting
"if at least one connection is subscribed to that FeedKey then exactly one
poller task exists for it". -/
theorem C1_counterexample :
    hasFeedSubscribers c1State.active_connections .price_updates ethereumC = true ∧
    assocContains ("price_".toList ++ ethereumC) c1State.update_tasks = false := by
  decide

/-- C2 (amended): for a FeedKey whose instrument does not contain the literal
`price_` or `indicators_` as a substring, unsubscribing (or disconnecting)
behaves as claimed: if the FeedKey has no subscriber afterwards, its poller
task is removed from the task map and, when it existed, cancelled; if a
subscriber remains, the task entry is untouched and not cancelled.  The
substring proviso is forced by `C2_counterexample`: the cleanup scan decodes
task keys with a replace-all, so instruments containing the prefix are decoded
to the wrong coin. -/
theorem C2_teardown_on_last_unsubscribe (s : WSManagerState) (i : Nat)
    (t : SubscriptionType) (cl : ClientSubscription)
    (ft : SubscriptionType) (c key : Str)
    (hc1 : containsSub "price_".toList c = false)
    (hc2 : containsSub "indicators_".toList c = false)
    (hkey : pollerFeedKeyStr ft c = some key) :
    ((feedHasSubscribers (unsubscribe_client s i t).active_connections ft c = false →
        assocContains key (unsubscribe_client s i t).update_tasks = false ∧
        (assocContains key s.update_tasks = true →
          key ∈ (unsubscribe_client s i t).cancelled_tasks)) ∧
      (feedHasSubscribers (unsubscribe_client s i t).active_connections ft c = true →
        assocContains key (unsubscribe_client s i t).update_tasks =
          assocContains key s.update_tasks ∧
        (key ∈ (unsubscribe_client s i t).cancelled_tasks ↔
          key ∈ s.cancelled_tasks))) ∧
    ((feedHasSubscribers (disconnect s cl).active_connections ft c = false →
        assocContains key (disconnect s cl).update_tasks = false ∧
        (assocContains key s.update_tasks = true →
          key ∈ (disconnect s cl).cancelled_tasks)) ∧
      (feedHasSubscribers (disconnect s cl).active_connections ft c = true →
        assocContains key (disconnect s cl).update_tasks =
          assocContains key s.update_tasks ∧
        (key ∈ (disconnect s cl).cancelled_tasks ↔ key ∈ s.cancelled_tasks))) := by
  constructor
  · simp only [unsubscribe_client]
    exact cleanup_poll_key_spec _ ft c key hc1 hc2 hkey
  · unfold disconnect
    split
    · exact cleanup_poll_key_spec _ ft c key hc1 hc2 hkey
    · exact cleanup_poll_key_spec _ ft c key hc1 hc2 hkey

/-- Witness for C2: with two price subscribers of bitcoin, the first one
unsubscribing leaves the poller present and uncancelled. -/
theorem C2_teardown_on_last_unsubscribe_witness :
    assocContains ("price_".toList ++ bitcoinC)
        (unsubscribe_client c2wState 0 .price_updates).update_tasks =
      assocContains ("price_".toList ++ bitcoinC) c2wState.update_tasks ∧
    assocContains ("price_".toList ++ bitcoinC) c2wState.update_tasks = true :=
  ⟨((C2_teardown_on_last_unsubscribe c2wState 0 .price_updates clientA .price_updates
      bitcoinC ("price_".toList ++ bitcoinC) (by decide) (by decide) rfl).1.2
      (by decide)).1,
    by decide⟩

/-- C2 counterexample: connection a subscribes to price updates for the
instrument "price_btc"; its poller task is keyed "price_price_btc".  An
unrelated unsubscribe by connection b triggers the cleanup scan, which decodes
the key via replace-all to "btc", finds no subscriber of "btc", and cancels and
removes a's poller — even though a connection other than the unsubscriber is
still subscribed to that FeedKey.  This refutes "if at least one other
connection remains subscribed to the FeedKey, the poller is neither cancelled
nor removed". -/
theorem C2_counterexample :
    hasFeedSubscribers c2State.active_connections .price_updates trickyCoin = true ∧
    assocContains ("price_".toList ++ trickyCoin) c2State0.update_tasks = true ∧
    assocContains ("price_".toList ++ trickyCoin) c2State.update_tasks = false ∧
    ("price_".toList ++ trickyCoin) ∈ c2State.cancelled_tasks := by
  decide

/-- C3 (confirmed): publishing a snapshot for FeedKey (t, c) delivers it to
exactly the connections currently subscribed to that key under the manager's
subscriber test: a connection's transport receives the message appended if and
only if it subscribes to `t`, watches `c`, and its transport is alive;
otherwise its record is completely untouched.  The registry itself (task map,
connection count) is unchanged. -/
theorem C3_fanout_exact (s : WSManagerState) (m : Msg) (t : SubscriptionType)
    (c : Str) (hc : c ≠ []) (i : Nat) (cl : ClientSubscription)
    (h : s.active_connections.get? i = some cl) :
    (broadcast_to_subscribers s m t (some c)).active_connections.get? i =
      some { cl with websocket :=
        if t ∈ cl.subscriptions ∧ c ∈ cl.watched_coins ∧ cl.websocket.closed = false
        then { cl.websocket with sent := cl.websocket.sent ++ [m] }
        else cl.websocket } ∧
    (broadcast_to_subscribers s m t (some c)).update_tasks = s.update_tasks ∧
    (broadcast_to_subscribers s m t (some c)).active_connections.length =
      s.active_connections.length := by
  have hce : c.isEmpty = false := by
    cases c with
    | nil => exact (hc rfl).elim
    | cons a rest => rfl
  refine ⟨?_, rfl, broadcast_length s m t (some c)⟩
  rw [broadcast_get? s m t (some c) i cl h]
  cases hcl : cl.websocket.closed <;>
    by_cases h1 : t ∈ cl.subscriptions <;>
      by_cases h2 : c ∈ cl.watched_coins <;>
        simp [eligibleForBroadcast, send_personal_message, hce, hcl, h1, h2]

/-- Witness for C3 at the three-connection scenario: the healthy subscriber's
transport receives the snapshot. -/
theorem C3_fanout_exact_witness :
    (broadcast_to_subscribers c7State demoMsg .price_updates
        (some bitcoinC)).active_connections.get? 1 =
      some { clientB with websocket :=
        { clientB.websocket with sent := clientB.websocket.sent ++ [demoMsg] } } := by
  have h := (C3_fanout_exact c7State demoMsg .price_updates bitcoinC
    (by decide) 1 clientB (by decide)).1
  rw [h]
  decide

/-- C4 (amended): a fetch failure (the fetch helper returns `None`) makes the
poller deliver nothing for that tick, leave the state untouched, and keep
running — but the next attempt comes after the same fixed 30-second base
interval; there is no exponential backoff.  A success broadcasts and sleeps
the same 30 seconds. -/
theorem C4_fetch_failure_keeps_running (s : WSManagerState) (coin : Str)
    (now : Nat)
    (h : hasFeedSubscribers s.active_connections .price_updates coin = true) :
    price_update_loop_tick s coin none now = .ran s false 30 ∧
    ∀ d : PriceData, ∃ s2 : WSManagerState,
      price_update_loop_tick s coin (some d) now = .ran s2 true 30 := by
  constructor
  · simp [price_update_loop_tick, h]
  · intro d
    refine ⟨broadcast_to_subscribers
      { s with price_cache := assocSet coin d s.price_cache,
               last_update := assocSet coin now s.last_update }
      (.priceUpdate coin d now) .price_updates (some coin), ?_⟩
    simp [price_update_loop_tick, h]

/-- Witness for C4: a failed tick at the concrete one-subscriber state. -/
theorem C4_fetch_failure_keeps_running_witness :
    price_update_loop_tick c4State bitcoinC none 5 = .ran c4State false 30 :=
  (C4_fetch_failure_keeps_running c4State bitcoinC 5 (by decide)).1

/-- C4 counterexample: three consecutive fetch failures leave the poller state
unchanged and sleep the base interval of 30 seconds each time, and the
subsequent successful tick also sleeps 30 — the inter-tick interval never
widens, refuting the claimed exponential backoff. -/
theorem C4_counterexample :
    price_update_loop_tick c4State bitcoinC none 0 = .ran c4State false 30 ∧
    price_update_loop_tick c4State bitcoinC none 1 = .ran c4State false 30 ∧
    price_update_loop_tick c4State bitcoinC none 2 = .ran c4State false 30 ∧
    (price_update_loop_tick c4State bitcoinC (some demoData) 3).sleep = some 30 := by
  decide

/-- C5 (amended): there is no bounded outbound channel, no drop-on-full policy
and no dropped-message counter: whatever the number of already pending
undelivered messages, a delivery to a subscribed connection with a live
transport appends the update to its transport buffer. -/
theorem C5_no_drop_policy (s : WSManagerState) (m : Msg) (t : SubscriptionType)
    (coin : Option Str) (i n : Nat) (cl : ClientSubscription)
    (h : s.active_connections.get? i = some cl)
    (h1 : eligibleForBroadcast t coin cl = true)
    (h2 : cl.websocket.closed = false)
    (hn : cl.websocket.sent.length = n) :
    ∃ cl2 : ClientSubscription,
      (broadcast_to_subscribers s m t coin).active_connections.get? i = some cl2 ∧
      cl2.websocket.sent = cl.websocket.sent ++ [m] ∧
      cl2.websocket.sent.length = n + 1 := by
  refine ⟨_, broadcast_get? s m t coin i cl h, ?_, ?_⟩
  · simp [h1, send_personal_message, h2]
  · simp [h1, send_personal_message, h2, hn]

/-- Witness for C5 at a connection with one pending message. -/
theorem C5_no_drop_policy_witness :
    ∃ cl2 : ClientSubscription,
      (broadcast_to_subscribers c5State demoMsg .price_updates
          (some bitcoinC)).active_connections.get? 0 = some cl2 ∧
      cl2.websocket.sent = busyClient.websocket.sent ++ [demoMsg] ∧
      cl2.websocket.sent.length = 1 + 1 :=
  C5_no_drop_policy c5State demoMsg .price_updates (some bitcoinC) 0 1 busyClient
    (by decide) (by decide) (by decide) (by decide)

/-- C5 counterexample: under the spec's own capacity-1 reading of the outbound
channel, `busyClient` already holds one undelivered message, so a further
delivery attempt should be dropped and counted; instead the update is appended
unconditionally (the per-connection state has no dropped-message counter to
increment), refuting the claimed drop-on-full policy. -/
theorem C5_counterexample :
    busyClient.websocket.sent.length = 1 ∧
    (broadcast_to_subscribers c5State demoMsg .price_updates
        (some bitcoinC)).active_connections.get? 0 =
      some { busyClient with websocket :=
        { busyClient.websocket with
            sent := busyClient.websocket.sent ++ [demoMsg] } } := by
  decide

/-- C6 (confirmed): disconnecting the same connection record twice is the same
state as disconnecting it once (assuming the record occurs at most once in the
connection list, which holds for real connections since each holds a distinct
websocket object): the second call removes nothing, cancels nothing and raises
nothing — the cleanup scan is idempotent. -/
theorem C6_idempotent_disconnect (s : WSManagerState) (cl : ClientSubscription)
    (h : countOcc cl s.active_connections ≤ 1) :
    disconnect (disconnect s cl) cl = disconnect s cl := by
  unfold disconnect
  by_cases hin : cl ∈ s.active_connections
  · rw [if_pos hin]
    have h2 : cl ∉ (cleanup_unused_tasks
        { s with active_connections := removeFirst cl s.active_connections
        }).active_connections := by
      rw [cleanup_connections]
      exact not_mem_removeFirst cl s.active_connections h
    rw [if_neg h2]
    exact cleanup_idem _
  · rw [if_neg hin]
    have h2 : cl ∉ (cleanup_unused_tasks s).active_connections := by
      rw [cleanup_connections]
      exact hin
    rw [if_neg h2]
    exact cleanup_idem s

/-- Witness for C6 at a state with one bitcoin price subscriber and a running
poller: the double disconnect equals the single disconnect. -/
theorem C6_idempotent_disconnect_witness :
    disconnect (disconnect c4State c4Client) c4Client = disconnect c4State c4Client :=
  C6_idempotent_disconnect c4State c4Client (by decide)

/-- C7 (amended): a delivery failure (dead transport) during a broadcast
raises nothing to the caller and leaves every other connection's delivery
untouched — but no cleanup of the failed connection happens: broadcasting
never removes a connection or touches the registry; the failed connection's
record is left exactly as it was (the broadcast's disconnect handling is
unreachable because `send_personal_message` swallows every exception). -/
theorem C7_delivery_failure_isolated (s : WSManagerState) (m : Msg)
    (t : SubscriptionType) (coin : Option Str) :
    (broadcast_to_subscribers s m t coin).active_connections.length =
      s.active_connections.length ∧
    (broadcast_to_subscribers s m t coin).update_tasks = s.update_tasks ∧
    (broadcast_to_subscribers s m t coin).cancelled_tasks = s.cancelled_tasks ∧
    ∀ (i : Nat) (cl : ClientSubscription),
      s.active_connections.get? i = some cl →
      ∃ cl2 : ClientSubscription,
        (broadcast_to_subscribers s m t coin).active_connections.get? i = some cl2 ∧
        cl2.client_id = cl.client_id ∧
        cl2.websocket.sockId = cl.websocket.sockId ∧
        cl2.websocket.closed = cl.websocket.closed ∧
        cl2.subscriptions = cl.subscriptions ∧
        cl2.watched_coins = cl.watched_coins ∧
        (cl.websocket.closed = true → cl2 = cl) ∧
        (eligibleForBroadcast t coin cl = true → cl.websocket.closed = false →
          cl2.websocket.sent = cl.websocket.sent ++ [m]) := by
  refine ⟨broadcast_length s m t coin, rfl, rfl, ?_⟩
  intro i cl h
  refine ⟨_, broadcast_get? s m t coin i cl h, ?_⟩
  by_cases he : eligibleForBroadcast t coin cl = true <;>
    cases hcl : cl.websocket.closed <;>
      simp [he, hcl, send_personal_message]

/-- Witness for C7: the dead connection in the broadcast scenario is left
untouched and remains registered. -/
theorem C7_delivery_failure_isolated_witness :
    ∃ cl2 : ClientSubscription,
      (broadcast_to_subscribers c7State demoMsg .price_updates
          (some bitcoinC)).active_connections.get? 0 = some cl2 ∧
      cl2.client_id = clientA.client_id ∧
      cl2.websocket.sockId = clientA.websocket.sockId ∧
      cl2.websocket.closed = clientA.websocket.closed ∧
      cl2.subscriptions = clientA.subscriptions ∧
      cl2.watched_coins = clientA.watched_coins ∧
      (clientA.websocket.closed = true → cl2 = clientA) ∧
      (eligibleForBroadcast .price_updates (some bitcoinC) clientA = true →
        clientA.websocket.closed = false →
        cl2.websocket.sent = clientA.websocket.sent ++ [demoMsg]) :=
  (C7_delivery_failure_isolated c7State demoMsg .price_updates
    (some bitcoinC)).2.2.2 0 clientA (by decide)

/-- C7 counterexample: connection a's transport is dead, so delivery to it
fails; the broadcast still delivers to healthy subscriber b, but a is NOT
cleaned up: it stays in the connection list with its record unchanged — no
implicit disconnect ever happens, refuting "triggers cleanup of the failed
connection as an implicit disconnect". -/
theorem C7_counterexample :
    clientA.websocket.closed = true ∧
    (broadcast_to_subscribers c7State demoMsg .price_updates
        (some bitcoinC)).active_connections.get? 0 = some clientA ∧
    (broadcast_to_subscribers c7State demoMsg .price_updates
        (some bitcoinC)).active_connections.length = 3 ∧
    (broadcast_to_subscribers c7State demoMsg .price_updates
        (some bitcoinC)).active_connections.get? 1 =
      some { clientB with websocket :=
        { clientB.websocket with sent := clientB.websocket.sent ++ [demoMsg] } } := by
  decide

/-- C8 (amended): a subscribe message naming a feed type outside the closed
enumeration adds no subscription, sends no message, and creates no poller —
but it is not handled as a synchronous validation error: the `ValueError`
escapes the dispatch loop and the endpoint's catch-all disconnects the client,
removing its connection from the registry (and cancelling any pollers left
subscriber-less); the task map can only shrink. -/
theorem C8_unknown_feed_type_disconnects (s : WSManagerState) (i : Nat)
    (rawT : Str) (coins : List Str) (cl : ClientSubscription)
    (hp : parseSubscriptionType rawT = none)
    (hg : s.active_connections.get? i = some cl) :
    (handleMessage s i (.subscribe rawT coins)).active_connections =
      removeFirst cl s.active_connections ∧
    (∀ x : ClientSubscription,
      x ∈ (handleMessage s i (.subscribe rawT coins)).active_connections →
        x ∈ s.active_connections) ∧
    (∀ k : Str,
      assocContains k (handleMessage s i (.subscribe rawT coins)).update_tasks = true →
        assocContains k s.update_tasks = true) := by
  have hmem : cl ∈ s.active_connections := List.get?_mem hg
  have heq : handleMessage s i (.subscribe rawT coins) = cleanup_unused_tasks
      { s with active_connections := removeFirst cl s.active_connections } := by
    simp only [handleMessage, hp, hg]
    unfold disconnect
    rw [if_pos hmem]
  rw [heq]
  refine ⟨rfl, ?_, ?_⟩
  · intro x hx
    rw [cleanup_connections] at hx
    exact mem_of_mem_removeFirst hx
  · intro k hk
    rw [cleanup_tasks_contains] at hk
    exact (Bool.and_eq_true _ _ |>.mp hk).1

/-- Witness for C8: the bogus subscribe at the concrete one-subscriber state
removes the connection. -/
theorem C8_unknown_feed_type_disconnects_witness :
    (handleMessage c4State 0 (.subscribe "bogus".toList [])).active_connections =
      removeFirst c4Client c4State.active_connections :=
  (C8_unknown_feed_type_disconnects c4State 0 "bogus".toList [] c4Client
    (by decide) (by decide)).1

/-- C8 counterexample: before the bogus subscribe, one connection and one
poller exist; the unknown feed type does not produce a rejected request — the
connection is removed and the poller cancelled, so registry state IS mutated,
refuting "rejects it synchronously as a client-visible validation error before
mutating any registry state". -/
theorem C8_counterexample :
    c4State.active_connections.length = 1 ∧
    assocContains ("price_".toList ++ bitcoinC) c4State.update_tasks = true ∧
    (handleMessage c4State 0 (.subscribe "bogus".toList [])).active_connections = [] ∧
    (handleMessage c4State 0 (.subscribe "bogus".toList [])).update_tasks = [] ∧
    ("price_".toList ++ bitcoinC) ∈
      (handleMessage c4State 0 (.subscribe "bogus".toList [])).cancelled_tasks := by
  decide

/-- C9 (amended): the "current prices" query answers from `price_cache` alone:
for a single-coin query it returns the cached snapshot exactly when the coin is
in the cache — and the cache survives unsubscribes, disconnects and the task
cleanup, so the answer is independent of whether a poller exists; after the
last subscriber leaves, the stale snapshot is still returned
(`C9_counterexample`), not NotFound. -/
theorem C9_cache_outlives_poller (s : WSManagerState) (i : Nat)
    (t : SubscriptionType) (cl : ClientSubscription) (c : Str) :
    (unsubscribe_client s i t).price_cache = s.price_cache ∧
    (disconnect s cl).price_cache = s.price_cache ∧
    (cleanup_unused_tasks s).price_cache = s.price_cache ∧
    getCurrentPrices s [c] = (match assocLookup c s.price_cache with
      | some d => [(c, d)]
      | none => []) := by
  refine ⟨rfl, ?_, rfl, ?_⟩
  · unfold disconnect
    split <;> rfl
  · unfold getCurrentPrices
    cases hl : assocLookup c s.price_cache <;>
      simp [List.foldl_cons, List.foldl_nil, hl, assocSet]

/-- C9 counterexample: after a successful tick cached `demoData` for bitcoin
and the only subscriber unsubscribed, the poller task is gone from the task
map, yet the query still returns the stale cached snapshot — refuting
"returns the poller's lastSnapshot if and only if a poller currently exists
for that FeedKey, and returns NotFound otherwise". -/
theorem C9_counterexample :
    assocContains ("price_".toList ++ bitcoinC) c9State.update_tasks = false ∧
    getCurrentPrices c9State [bitcoinC] = [(bitcoinC, demoData)] := by
  decide

/-- C10 (confirmed): a connection's watched instruments form one set shared
across all feed types: subscribing to feed type `t2` with instrument `c` also
makes the connection—already subscribed to `t1`—a delivery recipient of `t1`
updates for `c`, and unsubscribing from any feed type leaves every connection's
watched-coin set unchanged. -/
theorem C10_shared_watched_set (s : WSManagerState) (i : Nat)
    (cl : ClientSubscription) (t1 t2 : SubscriptionType) (c : Str) (m : Msg)
    (h : s.active_connections.get? i = some cl)
    (h1 : t1 ∈ cl.subscriptions)
    (h2 : cl.websocket.closed = false) :
    (∃ cl2 : ClientSubscription,
      (subscribe_client s i t2 [c]).active_connections.get? i = some cl2 ∧
      t1 ∈ cl2.subscriptions ∧ c ∈ cl2.watched_coins ∧
      ∃ cl3 : ClientSubscription,
        (broadcast_to_subscribers (subscribe_client s i t2 [c]) m t1
            (some c)).active_connections.get? i = some cl3 ∧
        cl3.websocket.sent = cl2.websocket.sent ++ [m]) ∧
    (∀ u : SubscriptionType,
      (unsubscribe_client s i u).active_connections.map
          (fun x => x.watched_coins) =
        s.active_connections.map (fun x => x.watched_coins)) := by
  constructor
  · have hget := subscribe_client_get? s i t2 [c] cl h
    refine ⟨_, hget, ?_, ?_, ?_⟩
    · exact mem_addToSet_of_mem h1
    · show c ∈ addToSet c cl.watched_coins
      exact mem_addToSet_self c cl.watched_coins
    · have helig : eligibleForBroadcast t1 (some c)
          { cl with
            subscriptions := addToSet t2 cl.subscriptions,
            watched_coins := [c].foldl (fun w c2 => addToSet c2 w) cl.watched_coins,
            websocket := send_personal_message (.subscriptionConfirmed t2) cl.websocket }
          = true := by
        have hm1 : t1 ∈ addToSet t2 cl.subscriptions := mem_addToSet_of_mem h1
        have hm2 : c ∈ addToSet c cl.watched_coins := mem_addToSet_self c cl.watched_coins
        simp [eligibleForBroadcast, hm1]
        exact Or.inr hm2
      have hop : (send_personal_message (Msg.subscriptionConfirmed t2)
          cl.websocket).closed = false := by
        rw [send_personal_message_closed, h2]
      refine ⟨_, broadcast_get? _ m t1 (some c) i _ hget, ?_⟩
      rw [helig, if_pos rfl]
      exact send_personal_message_sent_open m _ hop
  · intro u
    simp only [unsubscribe_client, cleanup_connections]
    apply map_modifyAt_invariant
    intro a
    rfl

/-- Witness for C10: a price subscriber of nothing-yet gains bitcoin price
delivery by subscribing to technical indicators with bitcoin. -/
theorem C10_shared_watched_set_witness :
    (∃ cl2 : ClientSubscription,
      (subscribe_client c7State 1 .technical_indicators
          [ethereumC]).active_connections.get? 1 = some cl2 ∧
      SubscriptionType.price_updates ∈ cl2.subscriptions ∧
      ethereumC ∈ cl2.watched_coins ∧
      ∃ cl3 : ClientSubscription,
        (broadcast_to_subscribers
            (subscribe_client c7State 1 .technical_indicators [ethereumC])
            demoMsg .price_updates (some ethereumC)).active_connections.get? 1 =
          some cl3 ∧
        cl3.websocket.sent = cl2.websocket.sent ++ [demoMsg]) ∧
    (∀ u : SubscriptionType,
      (unsubscribe_client c7State 1 u).active_connections.map
          (fun x => x.watched_coins) =
        c7State.active_connections.map (fun x => x.watched_coins)) :=
  C10_shared_watched_set c7State 1 clientB .price_updates .technical_indicators
    ethereumC demoMsg (by decide) (by decide) (by decide)
